import Mathlib

/-!
Verification of the agent orchestration core of the Gemini Computer Use
browser extension.

The development shallowly embeds, from the JavaScript sources:
the conversation data model (turns and parts), the screenshot-pruning
routine of the BrowserAgent, the per-iteration agent loop of the
service worker with safety gating, the legacy agent loop of the older
background worker, the model-gateway retry policy, the legacy action
executor, the navigate action of the content script, and the coordinate
normalization contract of lib/coordinates.js.

External effects (tab queries, the content-script actuator, the human
safety-approval channel, timers) are modelled as explicit oracles passed
to the embedded functions; JavaScript truthiness of optional strings is
modelled explicitly where the source relies on it.
-/

namespace GCU


/-! ## Data model (lib/api.js, lib/gemini-client.js) -/

/-- A safety decision object carried inside a function call's args. -/
structure SafetyDecision where
  decision : String
  explanation : Option String := none
  deriving DecidableEq, Repr

/-- The argument mapping of a model-issued function call; only the fields
read by the embedded code are modelled. -/
structure FunctionArgs where
  safety_decision : Option SafetyDecision := none
  url : Option String := none
  deriving DecidableEq, Repr

/-- A model-issued function call: name plus arguments (args default to an
empty mapping, as in extractFunctionCalls). -/
structure FunctionCall where
  name : String
  args : FunctionArgs := {}
  deriving DecidableEq, Repr

/-- A structured action result / function-response mapping. JavaScript
objects with optional fields are modelled with Option-valued fields;
a `none` field is an absent key. -/
structure ActionResult where
  success : Option Bool := none
  url : Option String := none
  error : Option String := none
  waited : Option Nat := none
  navigatedTo : Option String := none
  element : Option String := none
  denied : Option Bool := none
  reason : Option String := none
  safety_acknowledgement : Option String := none
  deriving DecidableEq, Repr

/-- An inlineData payload (base64 image chunk). -/
structure InlineData where
  mimeType : String
  data : String
  deriving DecidableEq, Repr

/-- A functionResponse object: name, response mapping, and the optional
parts array carrying the screenshot (set to null by pruning). -/
structure FunctionResponseData where
  name : String
  response : ActionResult
  parts : Option (List InlineData) := none
  deriving DecidableEq, Repr

/-- A content part: tagged union of the part shapes the code inspects. -/
inductive Part where
  | text (s : String) (thought : Bool)
  | inlineData (d : InlineData)
  | functionCall (fc : FunctionCall)
  | functionResponse (fr : FunctionResponseData)
  deriving DecidableEq, Repr

/-- A conversation turn: role plus an optional parts array (the code
checks content.parts for truthiness before using it). -/
structure Content where
  role : String
  parts : Option (List Part) := none
  deriving DecidableEq, Repr

/-- A response candidate: optional content and optional finish reason. -/
structure Candidate where
  content : Option Content := none
  finishReason : Option String := none
  deriving DecidableEq, Repr

/-- A model response: list of candidates. -/
structure ModelResponse where
  candidates : List Candidate
  deriving DecidableEq, Repr

/-! ## JavaScript string helpers -/

/-- JavaScript `opt || dflt` on an optional string: null/undefined and the
empty string are falsy. -/
def jsOrS (o : Option String) (dflt : String) : String :=
  match o with
  | some s => if s == "" then dflt else s
  | none => dflt

/-- JavaScript falsiness of a nullable string value. -/
def jsStrOptFalsy : Option String → Bool
  | none => true
  | some s => s == ""

/-- Substring search on character lists (structural, so that concrete
scenarios evaluate inside the kernel). -/
def listContainsSub (pat : List Char) : List Char → Bool
  | [] => pat.isEmpty
  | c :: t => List.isPrefixOf pat (c :: t) || listContainsSub pat t

/-- Substring test, used for `String.prototype.includes` and the
substring-matching regexes of the question heuristic. -/
def containsSub (s pat : String) : Bool :=
  listContainsSub pat.data s.data

/-- Lower-cased characters of a string. -/
def lowerChars (s : String) : List Char :=
  s.data.map Char.toLower

/-- Case-insensitive substring test (the /i regexes); patterns are given
in lower case. -/
def containsInsensitive (s pat : String) : Bool :=
  listContainsSub pat.data (lowerChars s)

/-- JavaScript `String.prototype.startsWith`. -/
def jsStartsWith (s pre : String) : Bool :=
  List.isPrefixOf pre.data s.data

/-- Lines of a string for the multiline regex anchor: both newline and
carriage return are line terminators for $ in JavaScript. -/
def splitLines : List Char → List (List Char)
  | [] => [[]]
  | c :: cs =>
    if c == '\n' || c == '\r' then [] :: splitLines cs
    else
      match splitLines cs with
      | [] => [[c]]
      | l :: ls => (c :: l) :: ls

/-- The trailing-question-mark regex test: some line ends with a
question mark. -/
def hasTrailingQuestionMark (s : String) : Bool :=
  (splitLines s.data).any (fun l => l.getLast? == some '?')

/-! ## Coordinate mapper (lib/coordinates.js) -/

/-- The fixed size of the normalized coordinate space. -/
def NORMALIZED_MAX : ℚ := 1000

/-- JavaScript Math.round on a rational: round half toward positive
infinity. -/
def jsRound (q : ℚ) : ℤ :=
  ⌊q + 1/2⌋

/-- denormalizeX: convert a normalized coordinate to pixels,
`Math.round((normalizedX / NORMALIZED_MAX) * viewportWidth)`. -/
def denormalizeX (normalizedX viewportWidth : ℤ) : ℤ :=
  jsRound ((normalizedX : ℚ) / NORMALIZED_MAX * (viewportWidth : ℚ))

/-- normalizeX: convert a pixel coordinate to normalized space,
`Math.round((pixelX / viewportWidth) * NORMALIZED_MAX)`. -/
def normalizeX (pixelX viewportWidth : ℤ) : ℤ :=
  jsRound ((pixelX : ℚ) / (viewportWidth : ℚ) * NORMALIZED_MAX)

/-! ## Screenshot pruning (BrowserAgent._cleanupOldScreenshots) -/

/-- The fixed 13-action vocabulary (PREDEFINED_COMPUTER_USE_FUNCTIONS). -/
def PREDEFINED_COMPUTER_USE_FUNCTIONS : List String :=
  ["open_web_browser", "click_at", "hover_at", "type_text_at",
   "scroll_document", "scroll_at", "wait_5_seconds", "go_back",
   "go_forward", "search", "navigate", "key_combination", "drag_and_drop"]

/-- Maximum number of recent turns allowed to keep screenshots. -/
def MAX_RECENT_TURN_WITH_SCREENSHOTS : Nat := 3

/-- A part qualifies for the pruning scan when it is a functionResponse
whose parts payload is present (truthy) and whose name is in the fixed
action vocabulary. -/
def partHasScreenshot (p : Part) : Bool :=
  match p with
  | .functionResponse fr =>
      fr.parts.isSome && PREDEFINED_COMPUTER_USE_FUNCTIONS.contains fr.name
  | _ => false

/-- A turn qualifies when it is a user turn with a truthy parts array
containing at least one qualifying functionResponse part. -/
def contentHasScreenshot (c : Content) : Bool :=
  c.role == "user" &&
    (match c.parts with
     | some ps => ps.any partHasScreenshot
     | none => false)

/-- Strip one part: a qualifying functionResponse has its parts payload
set to null; every other part is left untouched. -/
def stripPart (p : Part) : Part :=
  match p with
  | .functionResponse fr =>
      if fr.parts.isSome && PREDEFINED_COMPUTER_USE_FUNCTIONS.contains fr.name
      then .functionResponse { fr with parts := none }
      else p
  | _ => p

/-- Strip one turn: the inner for-loop of the cleanup routine, applied to
every part of the turn. -/
def stripContent (c : Content) : Content :=
  { c with parts := c.parts.map (fun ps => ps.map stripPart) }

/-- The backwards iteration of _cleanupOldScreenshots, expressed over the
reversed conversation (most recent turn first), threading the counter
turnWithScreenshotsFound. -/
def cleanupRevAux (cnt : Nat) : List Content → List Content
  | [] => []
  | c :: rest =>
    if contentHasScreenshot c then
      (if MAX_RECENT_TURN_WITH_SCREENSHOTS < cnt + 1 then stripContent c else c) ::
        cleanupRevAux (cnt + 1) rest
    else
      c :: cleanupRevAux cnt rest

/-- _cleanupOldScreenshots: iterate backwards through the conversation,
counting qualifying turns and stripping image payloads beyond the three
most recent. -/
def cleanupOldScreenshots (contents : List Content) : List Content :=
  (cleanupRevAux 0 contents.reverse).reverse

/-- A sample action result used by the concrete pruning scenario. -/
def sampleResponse (k : Nat) : ActionResult :=
  { success := some true, url := some ("https://example.com/page" ++ toString k) }

/-- The screenshot payload of the concrete pruning scenario. -/
def sampleShot (k : Nat) : InlineData :=
  { mimeType := "image/png", data := "shot" ++ toString k }

/-- The image-bearing functionResponse of the concrete pruning scenario. -/
def sampleFR (k : Nat) : FunctionResponseData :=
  { name := "click_at", response := sampleResponse k, parts := some [sampleShot k] }

/-- The same functionResponse with its image payload stripped. -/
def sampleFRStripped (k : Nat) : FunctionResponseData :=
  { name := "click_at", response := sampleResponse k, parts := none }

/-- One image-bearing user turn of the concrete pruning scenario. -/
def sampleTurn (k : Nat) : Content :=
  { role := "user",
    parts := some [Part.functionResponse (sampleFR k), Part.text ("step " ++ toString k) false] }

/-- Five image-bearing turns, oldest first. -/
def sampleConversation : List Content :=
  [sampleTurn 0, sampleTurn 1, sampleTurn 2, sampleTurn 3, sampleTurn 4]

/-! ## Model response classification (lib/gemini-client.js BrowserAgent) -/

/-- getText: concatenation of the candidate's non-thought text parts, or
null when there are none (empty-string text parts are falsy and skipped,
mirroring the part.text truthiness test). -/
def getText (cand : Candidate) : Option String :=
  match cand.content with
  | none => none
  | some ct =>
    match ct.parts with
    | none => none
    | some ps =>
      let textParts := ps.filterMap (fun p =>
        match p with
        | .text s th => if s != "" && !th then some s else none
        | _ => none)
      if textParts.isEmpty then none else some (String.join textParts)

/-- extractFunctionCalls: the functionCall parts of the candidate. -/
def extractFunctionCalls (cand : Candidate) : List FunctionCall :=
  match cand.content with
  | none => []
  | some ct =>
    match ct.parts with
    | none => []
    | some ps => ps.filterMap (fun p =>
        match p with
        | .functionCall fc => some fc
        | _ => none)

/-- isMalformedFunctionCall: the finish reason equals
MALFORMED_FUNCTION_CALL. -/
def isMalformedFunctionCall (cand : Candidate) : Bool :=
  cand.finishReason == some "MALFORMED_FUNCTION_CALL"

/-- The question-indicator regexes shared by both isWaitingForInput
variants: a line ending in a question mark, or one of the fixed
case-insensitive phrases. -/
def questionHeuristic (t : String) : Bool :=
  hasTrailingQuestionMark t ||
  containsInsensitive t "please confirm" ||
  containsInsensitive t "should i" ||
  containsInsensitive t "would you like" ||
  containsInsensitive t "which one" ||
  containsInsensitive t "do you want" ||
  containsInsensitive t "can you tell" ||
  containsInsensitive t "can you provide" ||
  containsInsensitive t "can you specify" ||
  containsInsensitive t "let me know" ||
  false

/-- isWaitingForInput (BrowserAgent variant): a falsy text never waits;
otherwise the question heuristic decides. -/
def isWaitingForInput (text : Option String) : Bool :=
  match text with
  | none => false
  | some t => if t == "" then false else questionHeuristic t

/-- The outcome of requiresSafetyConfirmation. -/
structure SafetyCheckResult where
  required : Bool
  explanation : Option String := none
  deriving DecidableEq, Repr

/-- requiresSafetyConfirmation: required exactly when the args carry a
safety_decision whose decision is require_confirmation; the explanation
defaults when falsy. -/
def requiresSafetyConfirmation (fc : FunctionCall) : SafetyCheckResult :=
  match fc.args.safety_decision with
  | some sd =>
    if sd.decision == "require_confirmation" then
      { required := true,
        explanation := some (jsOrS sd.explanation "Action requires confirmation") }
    else { required := false }
  | none => { required := false }

/-! ## The per-batch function-call loop

Both background workers run the model's function calls in order, checking
the stop flag and the safety gate before each execution.  The external
world is modelled by oracles: `exec` stands for the action executor,
`oracle` is the ordered list of safety decisions supplied so far by the
approval UI (a gated call whose decision has not been supplied suspends
the iteration), and `stop` is the shouldStop flag. -/

/-- Per-call processing status of one batch. -/
inductive CallStatus where
  | executedCall (r : ActionResult) (ack : Bool)
  | deniedCall
  | notReached
  | awaitingDecision
  deriving DecidableEq, Repr

/-- Terminal condition of one batch. -/
inductive BatchOutcome where
  | finishedBatch
  | stoppedBatch
  | terminatedBatch
  | blockedBatch
  deriving DecidableEq, Repr

/-- The function-call loop of the service worker's runOneIteration
(mirroring the Python variant): a denial terminates the whole batch. -/
def swRunCalls (exec : FunctionCall → ActionResult) (stop : Bool) :
    List Bool → List FunctionCall → List CallStatus × BatchOutcome
  | _, [] => ([], .finishedBatch)
  | oracle, fc :: rest =>
    if stop then ((fc :: rest).map (fun _ => CallStatus.notReached), .stoppedBatch)
    else if (requiresSafetyConfirmation fc).required then
      match oracle with
      | [] => (CallStatus.awaitingDecision :: rest.map (fun _ => CallStatus.notReached),
          .blockedBatch)
      | d :: oracle' =>
        if d then
          (CallStatus.executedCall (exec fc) true :: (swRunCalls exec stop oracle' rest).1,
            (swRunCalls exec stop oracle' rest).2)
        else
          (CallStatus.deniedCall :: rest.map (fun _ => CallStatus.notReached),
            .terminatedBatch)
    else
      (CallStatus.executedCall (exec fc) false :: (swRunCalls exec stop oracle rest).1,
        (swRunCalls exec stop oracle rest).2)

/-- buildFunctionResponse from lib/api.js: spread the result and add the
safety acknowledgement when set. Yields a functionResponse part with no
inline parts array. -/
def buildFunctionResponse (name : String) (result : ActionResult) (ack : Bool) : Part :=
  Part.functionResponse
    { name := name,
      response := if ack then { result with safety_acknowledgement := some "true" } else result,
      parts := none }

/-- The denial record pushed by the legacy loop when the user denies a
gated action. -/
def deniedResult : ActionResult :=
  { denied := some true, reason := some "User denied action" }

/-- The function-call loop of the legacy background worker's
runAgentLoop: a denial records a denied function response and continues
with the remaining calls of the batch. -/
def legacyRunCalls (exec : FunctionCall → ActionResult) (stop : Bool) :
    List Bool → List FunctionCall → List CallStatus × List Part × BatchOutcome
  | _, [] => ([], [], .finishedBatch)
  | oracle, fc :: rest =>
    if stop then ((fc :: rest).map (fun _ => CallStatus.notReached), [], .stoppedBatch)
    else if (requiresSafetyConfirmation fc).required then
      match oracle with
      | [] => (CallStatus.awaitingDecision :: rest.map (fun _ => CallStatus.notReached), [],
          .blockedBatch)
      | d :: oracle' =>
        if d then
          (CallStatus.executedCall (exec fc) true :: (legacyRunCalls exec stop oracle' rest).1,
            buildFunctionResponse fc.name (exec fc) true :: (legacyRunCalls exec stop oracle' rest).2.1,
            (legacyRunCalls exec stop oracle' rest).2.2)
        else
          (CallStatus.deniedCall :: (legacyRunCalls exec stop oracle' rest).1,
            buildFunctionResponse fc.name deniedResult false :: (legacyRunCalls exec stop oracle' rest).2.1,
            (legacyRunCalls exec stop oracle' rest).2.2)
    else
      (CallStatus.executedCall (exec fc) false :: (legacyRunCalls exec stop oracle rest).1,
        buildFunctionResponse fc.name (exec fc) false :: (legacyRunCalls exec stop oracle rest).2.1,
        (legacyRunCalls exec stop oracle rest).2.2)

/-! ## The service worker's runOneIteration -/

/-- A function-response record accumulated by the service-worker batch:
name, response mapping, and the screenshot captured after the action. -/
structure FRRecord where
  name : String
  response : ActionResult
  screenshot : Option String := none
  deriving DecidableEq, Repr

/-- The response records built by the service-worker loop for the
executed calls: the response carries only the url (result.url falling
back to the current tab url under JavaScript truthiness) plus the safety
acknowledgement. -/
def swResponses (calls : List FunctionCall) (statuses : List CallStatus)
    (currentUrl shot : String) : List FRRecord :=
  (calls.zip statuses).filterMap (fun p =>
    match p.2 with
    | .executedCall r ack =>
      some { name := p.1.name,
             response := { url := some (jsOrS r.url currentUrl),
                           safety_acknowledgement := if ack then some "true" else none },
             screenshot := some shot }
    | _ => none)

/-- addFunctionResponses of the BrowserAgent: append one user turn built
from the records (screenshots go into the functionResponse parts array)
and then prune old screenshots. -/
def addFunctionResponses (contents : List Content) (frs : List FRRecord) : List Content :=
  cleanupOldScreenshots (contents ++
    [{ role := "user",
       parts := some (frs.map (fun fr =>
         Part.functionResponse
           { name := fr.name, response := fr.response,
             parts := match fr.screenshot with
               | some sc => if sc == "" then none else some [{ mimeType := "image/png", data := sc }]
               | none => none })) }])

/-- The control signal returned by one iteration. -/
inductive IterSignal where
  | completeIter
  | continueIter
  | blockedIter
  deriving DecidableEq, Repr

/-- Status updates sent to the side panel. -/
inductive UIStatus where
  | waitingStatus
  | idleStatus
  deriving DecidableEq, Repr

/-- The observable result of one iteration: signal, conversation after
the iteration, per-call statuses of the batch, status update sent on a
zero-call completion, and whether an error banner was emitted. -/
structure IterResult where
  signal : IterSignal
  contents : List Content
  callStatuses : List CallStatus
  statusUpdate : Option UIStatus
  errorReported : Bool
  deriving DecidableEq, Repr

/-- runOneIteration of the service worker, with the model response and
the external effects supplied as arguments: no candidates is an error;
the candidate content is appended to the history; a malformed candidate
with no text and no calls retries; zero calls completes with the
waiting/idle status; otherwise the batch runs and, when it finishes, the
function responses are appended as one user turn (followed by screenshot
pruning). -/
def runOneIteration (contents : List Content) (resp : ModelResponse)
    (oracle : List Bool) (exec : FunctionCall → ActionResult)
    (currentUrl shot : String) (stop : Bool) : IterResult :=
  match resp.candidates with
  | [] => { signal := .completeIter, contents := contents, callStatuses := [],
            statusUpdate := none, errorReported := true }
  | cand :: _ =>
    let contents1 := contents ++ cand.content.toList
    let reasoning := getText cand
    let fcs := extractFunctionCalls cand
    if fcs.isEmpty && jsStrOptFalsy reasoning && isMalformedFunctionCall cand then
      { signal := .continueIter, contents := contents1, callStatuses := [],
        statusUpdate := none, errorReported := false }
    else if fcs.isEmpty then
      { signal := .completeIter, contents := contents1, callStatuses := [],
        statusUpdate := some (if isWaitingForInput reasoning then .waitingStatus else .idleStatus),
        errorReported := false }
    else
      let out := swRunCalls exec stop oracle fcs
      match out.2 with
      | .finishedBatch =>
        if stop then
          { signal := .completeIter, contents := contents1, callStatuses := out.1,
            statusUpdate := none, errorReported := false }
        else
          { signal := .continueIter,
            contents := addFunctionResponses contents1 (swResponses fcs out.1 currentUrl shot),
            callStatuses := out.1, statusUpdate := none, errorReported := false }
      | .stoppedBatch =>
        { signal := .completeIter, contents := contents1, callStatuses := out.1,
          statusUpdate := none, errorReported := false }
      | .terminatedBatch =>
        { signal := .completeIter, contents := contents1, callStatuses := out.1,
          statusUpdate := none, errorReported := false }
      | .blockedBatch =>
        { signal := .blockedIter, contents := contents1, callStatuses := out.1,
          statusUpdate := none, errorReported := false }

/-- A call is gated when it requires safety confirmation. -/
def gatedCallB (fc : FunctionCall) : Bool :=
  (requiresSafetyConfirmation fc).required

/-- A function call flagged by the model as requiring confirmation. -/
def gatedCall : FunctionCall :=
  { name := "click_at",
    args := { safety_decision := some { decision := "require_confirmation",
                                        explanation := some "risky action" } } }

/-- An unflagged function call. -/
def plainCall : FunctionCall :=
  { name := "go_back" }

/-- A stub action executor used by concrete scenarios. -/
def execStub : FunctionCall → ActionResult :=
  fun _ => { success := some true, url := some "https://example.com" }

/-- The model turn carrying only the gated call. -/
def gatedTurn : Content :=
  { role := "model", parts := some [Part.functionCall gatedCall] }

/-- A model response whose single candidate requests only the gated call. -/
def gatedResp : ModelResponse :=
  { candidates := [{ content := some gatedTurn }] }

/-- The model turn of the concrete waiting scenario. -/
def questionContent : Content :=
  { role := "model", parts := some [Part.text "Should I submit the form?" false] }

/-- The text-only question candidate of the concrete waiting scenario. -/
def questionCand : Candidate :=
  { content := some questionContent, finishReason := some "STOP" }

/-- A response whose single candidate asks a question and issues no
function calls. -/
def questionResp : ModelResponse :=
  { candidates := [questionCand] }

/-- The malformed candidate with an empty parts array. -/
def malformedEmptyCand : Candidate :=
  { content := some { role := "model", parts := some [] },
    finishReason := some "MALFORMED_FUNCTION_CALL" }

/-- A response whose single candidate is malformed but carries content. -/
def malformedEmptyResp : ModelResponse :=
  { candidates := [malformedEmptyCand] }

/-- The malformed candidate carrying no content at all. -/
def malformedNoContentCand : Candidate :=
  { content := none, finishReason := some "MALFORMED_FUNCTION_CALL" }

/-- A response whose single candidate is malformed and has no content. -/
def malformedNoContentResp : ModelResponse :=
  { candidates := [malformedNoContentCand] }

/-! ## Model gateway retry (BrowserAgent.getModelResponse) -/

/-- A failed API attempt: message, HTTP status and status text as far as
they are available on the thrown error. -/
structure ApiError where
  message : Option String := none
  status : Option Nat := none
  statusText : Option String := none
  deriving DecidableEq, Repr

/-- The final-attempt error enhancement: fall back to a generic message,
then annotate with the truthy status and status text. -/
def enhanceError (e : ApiError) : String :=
  let m0 := jsOrS e.message "Unknown API error"
  let m1 := match e.status with
    | some st => if st == 0 then m0 else "[" ++ toString st ++ "] " ++ m0
    | none => m0
  match e.statusText with
  | some st => if st == "" then m1 else m1 ++ " (" ++ st ++ ")"
  | none => m1

/-- Maximum number of model-call attempts. -/
def maxRetries : Nat := 5

/-- Base backoff delay in milliseconds. -/
def baseDelayMs : Nat := 1000

/-- The attempt loop of getModelResponse: `res` is the oracle giving each
attempt's outcome; the result pairs the surfaced outcome with the list of
backoff delays actually slept. The fuel argument mirrors the bounded for
loop (it never runs out: the final attempt either returns or throws). -/
def getModelResponseAux (res : Nat → Except ApiError ModelResponse) :
    Nat → Nat → Except String ModelResponse × List Nat
  | _, 0 => (.error "retry loop exhausted", [])
  | attempt, fuel + 1 =>
    match res attempt with
    | .ok r => (.ok r, [])
    | .error e =>
      if attempt == maxRetries - 1 then (.error (enhanceError e), [])
      else
        ((getModelResponseAux res (attempt + 1) fuel).1,
          baseDelayMs * 2 ^ attempt :: (getModelResponseAux res (attempt + 1) fuel).2)

/-- getModelResponse: up to maxRetries attempts with exponential backoff. -/
def getModelResponse (res : Nat → Except ApiError ModelResponse) :
    Except String ModelResponse × List Nat :=
  getModelResponseAux res 0 maxRetries

/-- The failing-twice-then-succeeding attempt oracle. -/
def attemptsTwoFailures : Nat → Except ApiError ModelResponse :=
  fun n => if n < 2 then .error { message := some "boom", status := some 500,
                                  statusText := some "Server Error" }
           else .ok { candidates := [] }

/-- The always-failing attempt oracle. -/
def attemptsAllFail : Nat → Except ApiError ModelResponse :=
  fun _ => .error { message := some "network down" }

/-! ## The legacy action executor (background executeAction) -/

/-- The outcome of one chrome.tabs.sendMessage call: either the content
script responds with a result, or the call throws with a message. -/
inductive SendOutcome where
  | respond (r : ActionResult)
  | failSend (message : String)
  deriving DecidableEq, Repr

/-- The environment oracle of executeAction: the active tab url (none
when no tab exists), the first sendMessage outcome, whether the script
injection succeeds, the injection failure message, and the retry
sendMessage outcome. -/
structure ExecEnv where
  tab : Option String
  firstSend : SendOutcome
  injectOk : Bool
  injectErrMsg : String
  retrySend : SendOutcome
  deriving DecidableEq, Repr

/-- executeAction of the legacy background worker: wait_5_seconds is
special-cased with the tab url; a missing content script is reinjected
and the action retried once; every other failure is folded into a
structured error result — the error results of this variant carry no url
field. -/
def executeAction (action : String) (env : ExecEnv) : ActionResult :=
  match env.tab with
  | none => { success := some false, error := some "No active tab found" }
  | some turl =>
    if action == "wait_5_seconds" then
      { success := some true, waited := some 5000, url := some turl }
    else
      match env.firstSend with
      | .respond r => r
      | .failSend m =>
        if containsSub m "Receiving end does not exist" then
          if env.injectOk then
            match env.retrySend with
            | .respond r => r
            | .failSend m2 =>
              { success := some false,
                error := some ("Failed to inject content script: " ++ m2) }
          else
            { success := some false,
              error := some ("Failed to inject content script: " ++ env.injectErrMsg) }
        else { success := some false, error := some m }

/-- executeAction of the newer service worker: identical control flow,
but every error path carries the url of the active tab (or the empty
string when no tab exists). -/
def executeActionSW (action : String) (env : ExecEnv) : ActionResult :=
  match env.tab with
  | none => { success := some false, error := some "No active tab found", url := some "" }
  | some turl =>
    if action == "wait_5_seconds" then
      { success := some true, waited := some 5000, url := some turl }
    else
      match env.firstSend with
      | .respond r => r
      | .failSend m =>
        if containsSub m "Receiving end does not exist" then
          if env.injectOk then
            match env.retrySend with
            | .respond r => r
            | .failSend m2 =>
              { success := some false,
                error := some ("Failed to inject content script: " ++ m2),
                url := some turl }
          else
            { success := some false,
              error := some ("Failed to inject content script: " ++ env.injectErrMsg),
              url := some turl }
        else { success := some false, error := some m, url := some turl }

/-- The environment where the content script is missing and reinjection
fails. -/
def envInjectFail : ExecEnv :=
  { tab := some "https://site.example",
    firstSend := .failSend
      "Could not establish connection. Receiving end does not exist.",
    injectOk := false,
    injectErrMsg := "Cannot access contents of the page",
    retrySend := .failSend "still missing" }

/-- The environment where sendMessage fails with an unrelated error. -/
def envOtherFail : ExecEnv :=
  { tab := some "https://site.example",
    firstSend := .failSend
      "The message port closed before a response was received.",
    injectOk := true,
    injectErrMsg := "",
    retrySend := .respond {} }

/-! ## The navigate action (content script) -/

/-- The observable outcome of the navigate handler: the returned result
and the navigation target assigned to window.location.href (none when no
navigation was performed). -/
structure NavigateOutcome where
  result : ActionResult
  navTarget : Option String
  deriving DecidableEq, Repr

/-- The result of a navigate call with a missing (or falsy) url. -/
def navNoUrl (loc : String) : NavigateOutcome :=
  { result := { success := some false, error := some "No URL provided", url := some loc },
    navTarget := none }

/-- The result of a successful navigation to the given target. -/
def navSuccess (target : String) : NavigateOutcome :=
  { result := { success := some true, navigatedTo := some target, url := some target },
    navTarget := some target }

/-- The navigate handler of the content script: a falsy url argument is
an error; a url without an http or https scheme gets https:// prepended;
the page is sent to the normalized url, which is also reported back. -/
def navigate (urlArg : Option String) (loc : String) : NavigateOutcome :=
  match urlArg with
  | none => navNoUrl loc
  | some u =>
    if u == "" then navNoUrl loc
    else
      if !(jsStartsWith u "http://") && !(jsStartsWith u "https://") then
        navSuccess ("https://" ++ u)
      else
        navSuccess u

/-! ## Theorems -/

/-- Claim C9, counterexample: at pixel 2 and extent 4000 the round trip
lands at pixel 4, two pixels away, so the +-1 bound fails for extents
above 2000. -/
theorem claim9_counterexample :
    ¬ |denormalizeX (normalizeX 2 4000) 4000 - 2| ≤ 1 := by
  norm_num [denormalizeX, normalizeX, jsRound, NORMALIZED_MAX]

/-- Claim C9 (amended): for every integer pixel p and extent e with
0 < e <= 2000, denormalize(normalize(p,e),e) is within +-1 of p. -/
theorem claim9_roundtrip (p e : ℤ) (he : 0 < e) (he2 : e ≤ 2000) :
    |denormalizeX (normalizeX p e) e - p| ≤ 1 := by
  have heQ : (0 : ℚ) < (e : ℚ) := by exact_mod_cast he
  have heQ2 : (e : ℚ) ≤ 2000 := by exact_mod_cast he2
  have heQ' : (e : ℚ) ≠ 0 := ne_of_gt heQ
  set x : ℚ := (p : ℚ) / (e : ℚ) * NORMALIZED_MAX with hxdef
  have hxe : x * (e : ℚ) / 1000 = (p : ℚ) := by
    rw [hxdef]
    show (p : ℚ) / (e : ℚ) * NORMALIZED_MAX * (e : ℚ) / 1000 = (p : ℚ)
    rw [NORMALIZED_MAX]
    field_simp
  set n : ℤ := normalizeX p e with hndef
  have hn1 : (n : ℚ) ≤ x + 1/2 := by
    rw [hndef]
    exact Int.floor_le _
  have hn2 : x - 1/2 < (n : ℚ) := by
    have := Int.lt_floor_add_one (x + 1/2)
    rw [hndef]
    show x - 1/2 < ((⌊x + 1/2⌋ : ℤ) : ℚ)
    linarith
  set r : ℤ := denormalizeX n e with hrdef
  set y : ℚ := (n : ℚ) / NORMALIZED_MAX * (e : ℚ) with hydef
  have hr1 : (r : ℚ) ≤ y + 1/2 := by
    rw [hrdef]
    exact Int.floor_le _
  have hr2 : y - 1/2 < (r : ℚ) := by
    have := Int.lt_floor_add_one (y + 1/2)
    rw [hrdef]
    show y - 1/2 < ((⌊y + 1/2⌋ : ℤ) : ℚ)
    linarith
  have hy_up : y ≤ (p : ℚ) + (e : ℚ) / 2000 := by
    have h := mul_le_mul_of_nonneg_right hn1 (le_of_lt heQ)
    rw [hydef, NORMALIZED_MAX]
    calc (n : ℚ) / 1000 * (e : ℚ) = (n : ℚ) * (e : ℚ) / 1000 := by ring
    _ ≤ (x + 1/2) * (e : ℚ) / 1000 := by linarith
    _ = x * (e : ℚ) / 1000 + (e : ℚ) / 2000 := by ring
    _ = (p : ℚ) + (e : ℚ) / 2000 := by rw [hxe]
  have hy_lo : (p : ℚ) - (e : ℚ) / 2000 < y := by
    have h := mul_lt_mul_of_pos_right hn2 heQ
    rw [hydef, NORMALIZED_MAX]
    calc (p : ℚ) - (e : ℚ) / 2000 = x * (e : ℚ) / 1000 - (e : ℚ) / 2000 := by rw [hxe]
    _ = (x - 1/2) * (e : ℚ) / 1000 := by ring
    _ < (n : ℚ) * (e : ℚ) / 1000 := by linarith
    _ = (n : ℚ) / 1000 * (e : ℚ) := by ring
  have he2000 : (e : ℚ) / 2000 ≤ 1 := by linarith
  have hup : (r : ℚ) < (p : ℚ) + 2 := by linarith
  have hlo : (p : ℚ) - 2 < (r : ℚ) := by linarith
  have hupZ : r < p + 2 := by exact_mod_cast hup
  have hloZ : p - 2 < r := by exact_mod_cast hlo
  rw [abs_le]
  constructor <;> omega

/-- Claim C9 witness: a concrete round trip within the amended bound. -/
theorem claim9_roundtrip_witness :
    (0 : ℤ) < 1366 ∧ |denormalizeX (normalizeX 7 1366) 1366 - 7| ≤ 1 :=
  ⟨by decide, claim9_roundtrip 7 1366 (by decide) (by decide)⟩

theorem cleanupRevAux_length (cnt : Nat) (l : List Content) :
    (cleanupRevAux cnt l).length = l.length := by
  induction l generalizing cnt with
  | nil => rfl
  | cons c rest ih =>
    by_cases h : contentHasScreenshot c <;> simp [cleanupRevAux, h, ih]

theorem cleanupOldScreenshots_length (cs : List Content) :
    (cleanupOldScreenshots cs).length = cs.length := by
  simp [cleanupOldScreenshots, cleanupRevAux_length]

theorem cleanupRevAux_getElem? (cnt : Nat) (l : List Content) (j : Nat) :
    (cleanupRevAux cnt l)[j]? = (l[j]?).map (fun c =>
      if contentHasScreenshot c = true ∧
          MAX_RECENT_TURN_WITH_SCREENSHOTS ≤ cnt + (l.take j).countP contentHasScreenshot
      then stripContent c else c) := by
  induction l generalizing cnt j with
  | nil => simp [cleanupRevAux]
  | cons c rest ih =>
    cases j with
    | zero =>
      by_cases h : contentHasScreenshot c
      · simp only [cleanupRevAux, h, if_true, List.getElem?_cons_zero, List.take_zero,
          List.countP_nil, Nat.add_zero, Option.map_some', true_and]
        have : MAX_RECENT_TURN_WITH_SCREENSHOTS < cnt + 1 ↔
            MAX_RECENT_TURN_WITH_SCREENSHOTS ≤ cnt := Nat.lt_succ_iff
        split <;> split <;> first | rfl | omega
      · simp [cleanupRevAux, h]
    | succ j' =>
      by_cases h : contentHasScreenshot c
      · simp only [cleanupRevAux]
        rw [if_pos h, List.getElem?_cons_succ, ih, List.getElem?_cons_succ,
          List.take_succ_cons, List.countP_cons]
        have e : (rest.take j').countP contentHasScreenshot +
            (if contentHasScreenshot c then 1 else 0) =
            (rest.take j').countP contentHasScreenshot + 1 := by
          rw [if_pos h]
        rw [e]
        have e2 : cnt + ((rest.take j').countP contentHasScreenshot + 1) =
            cnt + 1 + (rest.take j').countP contentHasScreenshot := by omega
        rw [e2]
      · simp only [cleanupRevAux]
        rw [if_neg h, List.getElem?_cons_succ, ih, List.getElem?_cons_succ,
          List.take_succ_cons, List.countP_cons]
        have e : (rest.take j').countP contentHasScreenshot +
            (if contentHasScreenshot c then 1 else 0) =
            (rest.take j').countP contentHasScreenshot + 0 := by
          rw [if_neg h]
        rw [e, Nat.add_zero]

/-- Per-index characterization of the pruning pass: a turn is stripped
exactly when it qualifies and at least three qualifying turns occur
after it (closer to the most recent end); every other turn is returned
unchanged. -/
theorem cleanupOldScreenshots_getElem? (cs : List Content) (i : Nat) :
    (cleanupOldScreenshots cs)[i]? = (cs[i]?).map (fun c =>
      if contentHasScreenshot c = true ∧
          MAX_RECENT_TURN_WITH_SCREENSHOTS ≤ (cs.drop (i + 1)).countP contentHasScreenshot
      then stripContent c else c) := by
  by_cases hi : i < cs.length
  · have hlen : (cleanupRevAux 0 cs.reverse).length = cs.length := by
      rw [cleanupRevAux_length, List.length_reverse]
    have hi' : i < (cleanupRevAux 0 cs.reverse).length := by omega
    rw [cleanupOldScreenshots, List.getElem?_reverse hi', hlen]
    rw [cleanupRevAux_getElem?]
    have hrev : cs.reverse[cs.length - 1 - i]? = cs[i]? := by
      have h2 : cs.length - 1 - i < cs.length := by omega
      rw [List.getElem?_reverse h2]
      congr 1
      omega
    rw [hrev]
    have htake : cs.reverse.take (cs.length - 1 - i) = (cs.drop (i + 1)).reverse := by
      have hsplit : cs = cs.take (i + 1) ++ cs.drop (i + 1) := (List.take_append_drop _ _).symm
      calc cs.reverse.take (cs.length - 1 - i)
          = ((cs.take (i + 1) ++ cs.drop (i + 1)).reverse).take (cs.length - 1 - i) := by
            rw [← hsplit]
        _ = ((cs.drop (i + 1)).reverse ++ (cs.take (i + 1)).reverse).take (cs.length - 1 - i) := by
            rw [List.reverse_append]
        _ = (cs.drop (i + 1)).reverse := by
            apply List.take_left'
            rw [List.length_reverse, List.length_drop]
            omega
    rw [htake, List.countP_reverse]
    simp
  · have h1 : (cleanupOldScreenshots cs)[i]? = none := by
      rw [List.getElem?_eq_none]
      rw [cleanupOldScreenshots_length]
      omega
    have h2 : cs[i]? = none := by
      rw [List.getElem?_eq_none]
      omega
    rw [h1, h2]
    rfl

theorem partHasScreenshot_stripPart (p : Part) :
    partHasScreenshot (stripPart p) = false := by
  cases p with
  | functionResponse fr =>
    simp only [stripPart]
    split
    · simp [partHasScreenshot]
    · rename_i h
      simp only [partHasScreenshot]
      simpa using h
  | text s th => rfl
  | inlineData d => rfl
  | functionCall fc => rfl

theorem contentHasScreenshot_stripContent (c : Content) :
    contentHasScreenshot (stripContent c) = false := by
  cases c with
  | mk role parts =>
    cases parts with
    | none => simp [stripContent, contentHasScreenshot]
    | some ps =>
      simp only [stripContent, contentHasScreenshot, Option.map_some']
      rw [Bool.and_eq_false_iff]
      right
      rw [List.any_map]
      simp only [List.any_eq_false, Function.comp_apply]
      intro p _
      simp [partHasScreenshot_stripPart p]

theorem cleanupRevAux_twice (l : List Content) :
    ∀ cnt₂ cnt₁, cnt₂ ≤ cnt₁ →
      cleanupRevAux cnt₂ (cleanupRevAux cnt₁ l) = cleanupRevAux cnt₁ l := by
  induction l with
  | nil => intro _ _ _; rfl
  | cons c rest ih =>
    intro cnt₂ cnt₁ hle
    by_cases h : contentHasScreenshot c
    · by_cases h1 : MAX_RECENT_TURN_WITH_SCREENSHOTS < cnt₁ + 1
      · rw [cleanupRevAux, if_pos h, if_pos h1, cleanupRevAux,
          if_neg (by simp [contentHasScreenshot_stripContent])]
        rw [ih cnt₂ (cnt₁ + 1) (by omega)]
      · rw [cleanupRevAux, if_pos h, if_neg h1, cleanupRevAux, if_pos h,
          if_neg (by omega : ¬ MAX_RECENT_TURN_WITH_SCREENSHOTS < cnt₂ + 1)]
        rw [ih (cnt₂ + 1) (cnt₁ + 1) (by omega)]
    · rw [cleanupRevAux, if_neg h, cleanupRevAux, if_neg h]
      rw [ih cnt₂ cnt₁ hle]

/-- Claim C6: screenshot pruning is idempotent — running the prune
operation a second time, with no turns added in between, leaves the
conversation exactly as after the first run. -/
theorem claim6_prune_idempotent (cs : List Content) :
    cleanupOldScreenshots (cleanupOldScreenshots cs) = cleanupOldScreenshots cs := by
  rw [cleanupOldScreenshots, cleanupOldScreenshots, List.reverse_reverse,
    cleanupRevAux_twice _ 0 0 (Nat.le_refl 0)]

/-- Claim C5: after pruning, exactly the turns that qualify (user turns
carrying a vocabulary functionResponse with an image payload) and have at
least three qualifying turns after them are stripped; all other turns are
returned unchanged. Stripping nulls only the image payload and keeps the
role, text parts, functionCall parts, and the functionResponse name and
response mapping. In the concrete five-turn scenario exactly the two
oldest turns lose their image payloads. -/
theorem claim5_pruning :
    (∀ (cs : List Content) (i : Nat),
      (cleanupOldScreenshots cs)[i]? = (cs[i]?).map (fun c =>
        if contentHasScreenshot c = true ∧
            MAX_RECENT_TURN_WITH_SCREENSHOTS ≤ (cs.drop (i + 1)).countP contentHasScreenshot
        then stripContent c else c))
    ∧ (∀ s th, stripPart (Part.text s th) = Part.text s th)
    ∧ (∀ d, stripPart (Part.inlineData d) = Part.inlineData d)
    ∧ (∀ fc, stripPart (Part.functionCall fc) = Part.functionCall fc)
    ∧ (∀ fr, ∃ q, stripPart (Part.functionResponse fr) =
        Part.functionResponse { name := fr.name, response := fr.response, parts := q })
    ∧ (∀ c, (stripContent c).role = c.role)
    ∧ cleanupOldScreenshots sampleConversation =
        [stripContent (sampleTurn 0), stripContent (sampleTurn 1),
          sampleTurn 2, sampleTurn 3, sampleTurn 4]
    ∧ stripContent (sampleTurn 0) =
        { role := "user",
          parts := some [Part.functionResponse (sampleFRStripped 0), Part.text "step 0" false] } := by
  refine ⟨cleanupOldScreenshots_getElem?, fun s th => rfl, fun d => rfl, fun fc => rfl,
    ?_, fun c => rfl, by decide, by decide⟩
  intro fr
  by_cases h : fr.parts.isSome && PREDEFINED_COMPUTER_USE_FUNCTIONS.contains fr.name
  · refine ⟨none, ?_⟩
    simp only [stripPart]
    rw [if_pos h]
  · refine ⟨fr.parts, ?_⟩
    simp only [stripPart]
    rw [if_neg h]

theorem swRunCalls_length (exec : FunctionCall → ActionResult) (stop : Bool)
    (oracle : List Bool) (calls : List FunctionCall) :
    (swRunCalls exec stop oracle calls).1.length = calls.length := by
  cases stop with
  | true => cases calls <;> simp [swRunCalls]
  | false =>
    induction calls generalizing oracle with
    | nil => rfl
    | cons c rest ih =>
      by_cases hg : (requiresSafetyConfirmation c).required = true
      · cases oracle with
        | nil => simp [swRunCalls, hg]
        | cons d oracle' =>
          by_cases hd : d = true
          · simp [swRunCalls, hg, hd, ih]
          · simp [swRunCalls, hg, hd]
      · simp [swRunCalls, hg, ih]

theorem legacyRunCalls_length (exec : FunctionCall → ActionResult) (stop : Bool)
    (oracle : List Bool) (calls : List FunctionCall) :
    (legacyRunCalls exec stop oracle calls).1.length = calls.length := by
  cases stop with
  | true => cases calls <;> simp [legacyRunCalls]
  | false =>
    induction calls generalizing oracle with
    | nil => rfl
    | cons c rest ih =>
      by_cases hg : (requiresSafetyConfirmation c).required = true
      · cases oracle with
        | nil => simp [legacyRunCalls, hg]
        | cons d oracle' =>
          by_cases hd : d = true
          · simp [legacyRunCalls, hg, hd, ih]
          · simp [legacyRunCalls, hg, hd, ih]
      · simp [legacyRunCalls, hg, ih]

theorem map_const_getElem? {α β : Type} {x : β} {l : List α} {i : Nat} {v : β}
    (h : (l.map (fun _ => x))[i]? = some v) : v = x := by
  rw [List.getElem?_map] at h
  cases hl : l[i]? with
  | none => rw [hl] at h; cases h
  | some w => rw [hl] at h; exact (Option.some_inj.mp h).symm

theorem swRunCalls_executed_decision (exec : FunctionCall → ActionResult) (stop : Bool) :
    ∀ (calls : List FunctionCall) (oracle : List Bool) (i : Nat) (fc : FunctionCall)
      (r : ActionResult) (a : Bool),
      calls[i]? = some fc →
      (swRunCalls exec stop oracle calls).1[i]? = some (CallStatus.executedCall r a) →
      gatedCallB fc = true →
      oracle[(calls.take i).countP gatedCallB]? = some true := by
  cases stop with
  | true =>
    intro calls oracle i fc r a hget hst _
    cases calls with
    | nil => simp at hget
    | cons c rest =>
      simp only [swRunCalls, if_pos rfl] at hst
      exact CallStatus.noConfusion (map_const_getElem? hst)
  | false =>
    intro calls
    induction calls with
    | nil => intro oracle i fc r a hget _ _; simp at hget
    | cons c rest ih =>
      intro oracle i fc r a hget hst hreq
      by_cases hg : (requiresSafetyConfirmation c).required = true
      · cases oracle with
        | nil =>
          simp only [swRunCalls] at hst
          rw [if_neg Bool.false_ne_true, if_pos hg] at hst
          cases i with
          | zero => simp at hst
          | succ i' =>
            simp only [List.getElem?_cons_succ] at hst
            exact CallStatus.noConfusion (map_const_getElem? hst)
        | cons d oracle' =>
          simp only [swRunCalls] at hst
          rw [if_neg Bool.false_ne_true, if_pos hg] at hst
          by_cases hd : d = true
          · rw [if_pos hd] at hst
            cases i with
            | zero =>
              simp only [List.take_zero, List.countP_nil, List.getElem?_cons_zero, hd]
            | succ i' =>
              simp only [List.getElem?_cons_succ] at hget hst
              have hrec := ih oracle' i' fc r a hget hst hreq
              simp only [List.take_succ_cons, List.countP_cons, gatedCallB, hg, if_true,
                List.getElem?_cons_succ]
              exact hrec
          · rw [if_neg hd] at hst
            cases i with
            | zero => simp at hst
            | succ i' =>
              simp only [List.getElem?_cons_succ] at hst
              exact CallStatus.noConfusion (map_const_getElem? hst)
      · simp only [swRunCalls] at hst
        rw [if_neg Bool.false_ne_true, if_neg hg] at hst
        cases i with
        | zero =>
          simp only [List.getElem?_cons_zero, Option.some.injEq] at hget
          subst hget
          rw [gatedCallB] at hreq
          exact absurd hreq hg
        | succ i' =>
          simp only [List.getElem?_cons_succ] at hget hst
          have hrec := ih oracle i' fc r a hget hst hreq
          have hgf : gatedCallB c = false := by
            rw [gatedCallB]
            exact Bool.eq_false_iff.mpr hg
          simp only [List.take_succ_cons, List.countP_cons, hgf, if_false, Nat.add_zero]
          exact hrec

theorem legacyRunCalls_executed_decision (exec : FunctionCall → ActionResult) (stop : Bool) :
    ∀ (calls : List FunctionCall) (oracle : List Bool) (i : Nat) (fc : FunctionCall)
      (r : ActionResult) (a : Bool),
      calls[i]? = some fc →
      (legacyRunCalls exec stop oracle calls).1[i]? = some (CallStatus.executedCall r a) →
      gatedCallB fc = true →
      oracle[(calls.take i).countP gatedCallB]? = some true := by
  cases stop with
  | true =>
    intro calls oracle i fc r a hget hst _
    cases calls with
    | nil => simp at hget
    | cons c rest =>
      simp only [legacyRunCalls, if_pos rfl] at hst
      exact CallStatus.noConfusion (map_const_getElem? hst)
  | false =>
    intro calls
    induction calls with
    | nil => intro oracle i fc r a hget _ _; simp at hget
    | cons c rest ih =>
      intro oracle i fc r a hget hst hreq
      by_cases hg : (requiresSafetyConfirmation c).required = true
      · cases oracle with
        | nil =>
          simp only [legacyRunCalls] at hst
          rw [if_neg Bool.false_ne_true, if_pos hg] at hst
          cases i with
          | zero => simp at hst
          | succ i' =>
            simp only [List.getElem?_cons_succ] at hst
            exact CallStatus.noConfusion (map_const_getElem? hst)
        | cons d oracle' =>
          simp only [legacyRunCalls] at hst
          rw [if_neg Bool.false_ne_true, if_pos hg] at hst
          by_cases hd : d = true
          · rw [if_pos hd] at hst
            cases i with
            | zero =>
              simp only [List.take_zero, List.countP_nil, List.getElem?_cons_zero, hd]
            | succ i' =>
              simp only [List.getElem?_cons_succ] at hget hst
              have hrec := ih oracle' i' fc r a hget hst hreq
              simp only [List.take_succ_cons, List.countP_cons, gatedCallB, hg, if_true,
                List.getElem?_cons_succ]
              exact hrec
          · rw [if_neg hd] at hst
            cases i with
            | zero => simp at hst
            | succ i' =>
              simp only [List.getElem?_cons_succ] at hget hst
              have hrec := ih oracle' i' fc r a hget hst hreq
              simp only [List.take_succ_cons, List.countP_cons, gatedCallB, hg, if_true,
                List.getElem?_cons_succ]
              exact hrec
      · simp only [legacyRunCalls] at hst
        rw [if_neg Bool.false_ne_true, if_neg hg] at hst
        cases i with
        | zero =>
          simp only [List.getElem?_cons_zero, Option.some.injEq] at hget
          subst hget
          rw [gatedCallB] at hreq
          exact absurd hreq hg
        | succ i' =>
          simp only [List.getElem?_cons_succ] at hget hst
          have hrec := ih oracle i' fc r a hget hst hreq
          have hgf : gatedCallB c = false := by
            rw [gatedCallB]
            exact Bool.eq_false_iff.mpr hg
          simp only [List.take_succ_cons, List.countP_cons, hgf, if_false, Nat.add_zero]
          exact hrec

theorem swRunCalls_denied_tail (exec : FunctionCall → ActionResult) (stop : Bool) :
    ∀ (calls : List FunctionCall) (oracle : List Bool) (i j : Nat),
      (swRunCalls exec stop oracle calls).1[i]? = some CallStatus.deniedCall →
      i < j → j < calls.length →
      (swRunCalls exec stop oracle calls).1[j]? = some CallStatus.notReached := by
  cases stop with
  | true =>
    intro calls oracle i j hst _ _
    cases calls with
    | nil => simp [swRunCalls] at hst
    | cons c rest =>
      simp only [swRunCalls, if_pos rfl] at hst
      exact CallStatus.noConfusion (map_const_getElem? hst)
  | false =>
    intro calls
    induction calls with
    | nil => intro oracle i j hst _ hj; simp at hj
    | cons c rest ih =>
      intro oracle i j hst hij hj
      by_cases hg : (requiresSafetyConfirmation c).required = true
      · cases oracle with
        | nil =>
          simp only [swRunCalls] at hst ⊢
          rw [if_neg Bool.false_ne_true, if_pos hg] at hst ⊢
          cases i with
          | zero => simp at hst
          | succ i' =>
            simp only [List.getElem?_cons_succ] at hst
            exact CallStatus.noConfusion (map_const_getElem? hst)
        | cons d oracle' =>
          simp only [swRunCalls] at hst ⊢
          rw [if_neg Bool.false_ne_true, if_pos hg] at hst ⊢
          by_cases hd : d = true
          · rw [if_pos hd] at hst ⊢
            cases i with
            | zero => simp at hst
            | succ i' =>
              simp only [List.getElem?_cons_succ] at hst
              obtain ⟨j', rfl⟩ : ∃ j', j = j' + 1 := ⟨j - 1, by omega⟩
              simp only [List.getElem?_cons_succ]
              exact ih oracle' i' j' hst (by omega) (by simpa using hj)
          · rw [if_neg hd] at hst ⊢
            cases i with
            | zero =>
              obtain ⟨j', rfl⟩ : ∃ j', j = j' + 1 := ⟨j - 1, by omega⟩
              simp only [List.getElem?_cons_succ, List.getElem?_map]
              have hj' : j' < rest.length := by simpa using hj
              rw [List.getElem?_eq_getElem hj']
              rfl
            | succ i' =>
              simp only [List.getElem?_cons_succ] at hst
              exact CallStatus.noConfusion (map_const_getElem? hst)
      · simp only [swRunCalls] at hst ⊢
        rw [if_neg Bool.false_ne_true, if_neg hg] at hst ⊢
        cases i with
        | zero => simp at hst
        | succ i' =>
          simp only [List.getElem?_cons_succ] at hst
          obtain ⟨j', rfl⟩ : ∃ j', j = j' + 1 := ⟨j - 1, by omega⟩
          simp only [List.getElem?_cons_succ]
          exact ih oracle i' j' hst (by omega) (by simpa using hj)

theorem swRunCalls_denied_outcome (exec : FunctionCall → ActionResult) (stop : Bool) :
    ∀ (calls : List FunctionCall) (oracle : List Bool) (i : Nat),
      (swRunCalls exec stop oracle calls).1[i]? = some CallStatus.deniedCall →
      (swRunCalls exec stop oracle calls).2 = BatchOutcome.terminatedBatch := by
  cases stop with
  | true =>
    intro calls oracle i hst
    cases calls with
    | nil => simp [swRunCalls] at hst
    | cons c rest =>
      simp only [swRunCalls, if_pos rfl] at hst
      exact CallStatus.noConfusion (map_const_getElem? hst)
  | false =>
    intro calls
    induction calls with
    | nil => intro oracle i hst; simp [swRunCalls] at hst
    | cons c rest ih =>
      intro oracle i hst
      by_cases hg : (requiresSafetyConfirmation c).required = true
      · cases oracle with
        | nil =>
          simp only [swRunCalls] at hst ⊢
          rw [if_neg Bool.false_ne_true, if_pos hg] at hst ⊢
          cases i with
          | zero => simp at hst
          | succ i' =>
            simp only [List.getElem?_cons_succ] at hst
            exact CallStatus.noConfusion (map_const_getElem? hst)
        | cons d oracle' =>
          simp only [swRunCalls] at hst ⊢
          rw [if_neg Bool.false_ne_true, if_pos hg] at hst ⊢
          by_cases hd : d = true
          · rw [if_pos hd] at hst ⊢
            cases i with
            | zero => simp at hst
            | succ i' =>
              simp only [List.getElem?_cons_succ] at hst
              exact ih oracle' i' hst
          · rw [if_neg hd] at hst ⊢
      · simp only [swRunCalls] at hst ⊢
        rw [if_neg Bool.false_ne_true, if_neg hg] at hst ⊢
        cases i with
        | zero => simp at hst
        | succ i' =>
          simp only [List.getElem?_cons_succ] at hst
          exact ih oracle i' hst

theorem legacyRunCalls_denied_recorded (exec : FunctionCall → ActionResult) (stop : Bool) :
    ∀ (calls : List FunctionCall) (oracle : List Bool) (i : Nat) (fc : FunctionCall),
      calls[i]? = some fc →
      (legacyRunCalls exec stop oracle calls).1[i]? = some CallStatus.deniedCall →
      buildFunctionResponse fc.name deniedResult false ∈
        (legacyRunCalls exec stop oracle calls).2.1 := by
  cases stop with
  | true =>
    intro calls oracle i fc hget hst
    cases calls with
    | nil => simp at hget
    | cons c rest =>
      simp only [legacyRunCalls, if_pos rfl] at hst
      exact CallStatus.noConfusion (map_const_getElem? hst)
  | false =>
    intro calls
    induction calls with
    | nil => intro oracle i fc hget _; simp at hget
    | cons c rest ih =>
      intro oracle i fc hget hst
      by_cases hg : (requiresSafetyConfirmation c).required = true
      · cases oracle with
        | nil =>
          simp only [legacyRunCalls] at hst ⊢
          rw [if_neg Bool.false_ne_true, if_pos hg] at hst ⊢
          cases i with
          | zero => simp at hst
          | succ i' =>
            simp only [List.getElem?_cons_succ] at hst
            exact CallStatus.noConfusion (map_const_getElem? hst)
        | cons d oracle' =>
          simp only [legacyRunCalls] at hst ⊢
          rw [if_neg Bool.false_ne_true, if_pos hg] at hst ⊢
          by_cases hd : d = true
          · rw [if_pos hd] at hst ⊢
            cases i with
            | zero => simp at hst
            | succ i' =>
              simp only [List.getElem?_cons_succ] at hget hst
              exact List.mem_cons_of_mem _ (ih oracle' i' fc hget hst)
          · rw [if_neg hd] at hst ⊢
            cases i with
            | zero =>
              simp only [List.getElem?_cons_zero, Option.some.injEq] at hget
              subst hget
              exact List.mem_cons_self _ _
            | succ i' =>
              simp only [List.getElem?_cons_succ] at hget hst
              exact List.mem_cons_of_mem _ (ih oracle' i' fc hget hst)
      · simp only [legacyRunCalls] at hst ⊢
        rw [if_neg Bool.false_ne_true, if_neg hg] at hst ⊢
        cases i with
        | zero => simp at hst
        | succ i' =>
          simp only [List.getElem?_cons_succ] at hget hst
          exact List.mem_cons_of_mem _ (ih oracle i' fc hget hst)

theorem legacyRunCalls_head_status (exec : FunctionCall → ActionResult)
    (oracle : List Bool) (c : FunctionCall) (rest : List FunctionCall) :
    (legacyRunCalls exec false oracle (c :: rest)).1[0]? ≠ some CallStatus.notReached := by
  by_cases hg : (requiresSafetyConfirmation c).required = true
  · cases oracle with
    | nil =>
      simp only [legacyRunCalls]
      rw [if_neg Bool.false_ne_true, if_pos hg]
      simp
    | cons d oracle' =>
      simp only [legacyRunCalls]
      rw [if_neg Bool.false_ne_true, if_pos hg]
      by_cases hd : d = true
      · rw [if_pos hd]; simp
      · rw [if_neg hd]; simp
  · simp only [legacyRunCalls]
    rw [if_neg Bool.false_ne_true, if_neg hg]
    simp

theorem legacyRunCalls_continues_after_denial (exec : FunctionCall → ActionResult)
    (stop : Bool) :
    ∀ (calls : List FunctionCall) (oracle : List Bool) (i : Nat),
      (legacyRunCalls exec stop oracle calls).1[i]? = some CallStatus.deniedCall →
      i + 1 < calls.length →
      (legacyRunCalls exec stop oracle calls).1[i + 1]? ≠ some CallStatus.notReached := by
  cases stop with
  | true =>
    intro calls oracle i hst _
    cases calls with
    | nil => simp [legacyRunCalls] at hst
    | cons c rest =>
      simp only [legacyRunCalls, if_pos rfl] at hst
      exact CallStatus.noConfusion (map_const_getElem? hst)
  | false =>
    intro calls
    induction calls with
    | nil => intro oracle i hst hi; simp at hi
    | cons c rest ih =>
      intro oracle i hst hi
      by_cases hg : (requiresSafetyConfirmation c).required = true
      · cases oracle with
        | nil =>
          simp only [legacyRunCalls] at hst ⊢
          rw [if_neg Bool.false_ne_true, if_pos hg] at hst ⊢
          cases i with
          | zero => simp at hst
          | succ i' =>
            simp only [List.getElem?_cons_succ] at hst
            exact CallStatus.noConfusion (map_const_getElem? hst)
        | cons d oracle' =>
          simp only [legacyRunCalls] at hst ⊢
          rw [if_neg Bool.false_ne_true, if_pos hg] at hst ⊢
          by_cases hd : d = true
          · rw [if_pos hd] at hst ⊢
            cases i with
            | zero => simp at hst
            | succ i' =>
              simp only [List.getElem?_cons_succ] at hst ⊢
              exact ih oracle' i' hst (by simpa using hi)
          · rw [if_neg hd] at hst ⊢
            cases i with
            | zero =>
              have hr : rest.length ≥ 1 := by simpa using hi
              obtain ⟨c', rest', rfl⟩ : ∃ c' rest', rest = c' :: rest' := by
                cases rest with
                | nil => simp at hr
                | cons c' rest' => exact ⟨c', rest', rfl⟩
              simp only [List.getElem?_cons_succ]
              exact legacyRunCalls_head_status exec oracle' c' rest'
            | succ i' =>
              simp only [List.getElem?_cons_succ] at hst ⊢
              exact ih oracle' i' hst (by simpa using hi)
      · simp only [legacyRunCalls] at hst ⊢
        rw [if_neg Bool.false_ne_true, if_neg hg] at hst ⊢
        cases i with
        | zero => simp at hst
        | succ i' =>
          simp only [List.getElem?_cons_succ] at hst ⊢
          exact ih oracle i' hst (by simpa using hi)

/-- Claim C1 (amended): in both loop variants a gated call is executed
only if its safety decision was supplied and was an approval (so it never
runs before a decision arrives, and never runs after a denial); the
legacy loop records a denied function response for a denied call, while
the service-worker loop terminates the batch on denial. -/
theorem claim1_safety_gating :
    (∀ (exec : FunctionCall → ActionResult) (stop : Bool) (calls : List FunctionCall)
      (oracle : List Bool) (i : Nat) (fc : FunctionCall) (r : ActionResult) (a : Bool),
      calls[i]? = some fc →
      (swRunCalls exec stop oracle calls).1[i]? = some (CallStatus.executedCall r a) →
      gatedCallB fc = true →
      oracle[(calls.take i).countP gatedCallB]? = some true)
    ∧ (∀ (exec : FunctionCall → ActionResult) (stop : Bool) (calls : List FunctionCall)
      (oracle : List Bool) (i : Nat) (fc : FunctionCall) (r : ActionResult) (a : Bool),
      calls[i]? = some fc →
      (legacyRunCalls exec stop oracle calls).1[i]? = some (CallStatus.executedCall r a) →
      gatedCallB fc = true →
      oracle[(calls.take i).countP gatedCallB]? = some true)
    ∧ (∀ (exec : FunctionCall → ActionResult) (stop : Bool) (calls : List FunctionCall)
      (oracle : List Bool) (i : Nat) (fc : FunctionCall),
      calls[i]? = some fc →
      (legacyRunCalls exec stop oracle calls).1[i]? = some CallStatus.deniedCall →
      buildFunctionResponse fc.name deniedResult false ∈
        (legacyRunCalls exec stop oracle calls).2.1)
    ∧ (∀ (exec : FunctionCall → ActionResult) (stop : Bool) (calls : List FunctionCall)
      (oracle : List Bool) (i : Nat),
      (swRunCalls exec stop oracle calls).1[i]? = some CallStatus.deniedCall →
      (swRunCalls exec stop oracle calls).2 = BatchOutcome.terminatedBatch) := by
  refine ⟨?_, ?_, ?_, ?_⟩
  · intro exec stop calls oracle i fc r a h1 h2 h3
    exact swRunCalls_executed_decision exec stop calls oracle i fc r a h1 h2 h3
  · intro exec stop calls oracle i fc r a h1 h2 h3
    exact legacyRunCalls_executed_decision exec stop calls oracle i fc r a h1 h2 h3
  · intro exec stop calls oracle i fc h1 h2
    exact legacyRunCalls_denied_recorded exec stop calls oracle i fc h1 h2
  · intro exec stop calls oracle i h1
    exact swRunCalls_denied_outcome exec stop calls oracle i h1

/-- Claim C1 witness: with one gated call and decision allow, the supplied
decision is consulted; with decision deny, the legacy loop records the
denial. -/
theorem claim1_safety_gating_witness :
    ([true] : List Bool)[(([gatedCall].take 0).countP gatedCallB)]? = some true
    ∧ buildFunctionResponse gatedCall.name deniedResult false ∈
        (legacyRunCalls execStub false [false] [gatedCall]).2.1 :=
  ⟨claim1_safety_gating.1 execStub false [gatedCall] [true] 0 gatedCall
      (execStub gatedCall) true rfl rfl rfl,
    claim1_safety_gating.2.2.1 execStub false [gatedCall] [false] 0 gatedCall rfl rfl⟩

/-- Claim C1 counterexample: in the service-worker loop a denied gated
call is never executed, but nothing is recorded either — the iteration
completes with the conversation holding only the model turn, and no
functionResponse part (in particular no denial record) exists anywhere
in the conversation. -/
theorem claim1_counterexample :
    runOneIteration [] gatedResp [false] execStub "https://example.com" "shot" false =
      { signal := IterSignal.completeIter, contents := [gatedTurn],
        callStatuses := [CallStatus.deniedCall], statusUpdate := none,
        errorReported := false }
    ∧ ((runOneIteration [] gatedResp [false] execStub "https://example.com" "shot"
          false).contents.all (fun c =>
        (c.parts.getD []).all (fun p =>
          match p with
          | Part.functionResponse _ => false
          | _ => true))) = true := by
  constructor
  · rfl
  · rfl

/-- Claim C2 (amended): in the service-worker loop a denial prevents
every later call of the batch from being processed; in the legacy loop
the batch continues — the call directly after a denied one is still
processed (never left unreached). -/
theorem claim2_denial_batch :
    (∀ (exec : FunctionCall → ActionResult) (stop : Bool) (calls : List FunctionCall)
      (oracle : List Bool) (i j : Nat),
      (swRunCalls exec stop oracle calls).1[i]? = some CallStatus.deniedCall →
      i < j → j < calls.length →
      (swRunCalls exec stop oracle calls).1[j]? = some CallStatus.notReached)
    ∧ (∀ (exec : FunctionCall → ActionResult) (stop : Bool) (calls : List FunctionCall)
      (oracle : List Bool) (i : Nat),
      (legacyRunCalls exec stop oracle calls).1[i]? = some CallStatus.deniedCall →
      i + 1 < calls.length →
      (legacyRunCalls exec stop oracle calls).1[i + 1]? ≠ some CallStatus.notReached) := by
  constructor
  · intro exec stop calls oracle i j h1 h2 h3
    exact swRunCalls_denied_tail exec stop calls oracle i j h1 h2 h3
  · intro exec stop calls oracle i h1 h2
    exact legacyRunCalls_continues_after_denial exec stop calls oracle i h1 h2

/-- Claim C2 witness: in the service-worker loop, after the denial of the
first call the second call of the batch is left unreached. -/
theorem claim2_denial_batch_witness :
    (swRunCalls execStub false [false] [gatedCall, plainCall]).1[1]? =
      some CallStatus.notReached :=
  claim2_denial_batch.1 execStub false [gatedCall, plainCall] [false] 0 1
    rfl (by omega) (by decide)

/-- Claim C2 counterexample: in the legacy loop a denial of the first
call does not stop the batch — the second call is still executed. -/
theorem claim2_counterexample :
    (legacyRunCalls execStub false [false] [gatedCall, plainCall]).1 =
      [CallStatus.deniedCall, CallStatus.executedCall (execStub plainCall) false] := by
  rfl

/-- Claim C3 (amended): when the first candidate carries zero function
calls the Action Executor is never consulted (no call statuses); unless
the candidate is the malformed-retry case (falsy text together with the
MALFORMED_FUNCTION_CALL finish reason) the iteration completes and the
status update is waiting exactly when the non-thought text matches the
question heuristic, else idle; in the malformed-retry case the iteration
signals a retry with no status update. -/
theorem claim3_zero_calls (contents : List Content) (resp : ModelResponse)
    (oracle : List Bool) (exec : FunctionCall → ActionResult)
    (currentUrl shot : String) (stop : Bool) (cand : Candidate) (rest : List Candidate)
    (hc : resp.candidates = cand :: rest)
    (hfc : extractFunctionCalls cand = []) :
    (runOneIteration contents resp oracle exec currentUrl shot stop).callStatuses = []
    ∧ (¬(jsStrOptFalsy (getText cand) = true ∧ isMalformedFunctionCall cand = true) →
        (runOneIteration contents resp oracle exec currentUrl shot stop).signal =
          IterSignal.completeIter
        ∧ (runOneIteration contents resp oracle exec currentUrl shot stop).statusUpdate =
            some (if isWaitingForInput (getText cand) then UIStatus.waitingStatus
                  else UIStatus.idleStatus))
    ∧ ((jsStrOptFalsy (getText cand) = true ∧ isMalformedFunctionCall cand = true) →
        (runOneIteration contents resp oracle exec currentUrl shot stop).signal =
          IterSignal.continueIter
        ∧ (runOneIteration contents resp oracle exec currentUrl shot stop).statusUpdate =
            none) := by
  obtain ⟨cands⟩ := resp
  simp only at hc
  subst hc
  by_cases hm : jsStrOptFalsy (getText cand) = true ∧ isMalformedFunctionCall cand = true
  · refine ⟨?_, fun h => absurd hm h, fun _ => ?_⟩
    · simp [runOneIteration, hfc, hm.1, hm.2]
    · constructor <;> simp [runOneIteration, hfc, hm.1, hm.2]
  · have hm' : (jsStrOptFalsy (getText cand) && isMalformedFunctionCall cand) = false := by
      rw [Bool.and_eq_false_iff]
      by_cases h1 : jsStrOptFalsy (getText cand) = true
      · right
        by_cases h2 : isMalformedFunctionCall cand = true
        · exact absurd ⟨h1, h2⟩ hm
        · exact Bool.eq_false_iff.mpr h2
      · exact Or.inl (Bool.eq_false_iff.mpr h1)
    refine ⟨?_, fun _ => ?_, fun h => absurd h hm⟩
    · simp [runOneIteration, hfc, hm']
    · constructor <;> simp [runOneIteration, hfc, hm']

/-- Claim C3 witness: the concrete question reply completes the iteration
with a waiting status and no call statuses. -/
theorem claim3_zero_calls_witness :
    (runOneIteration [] questionResp [] execStub "https://example.com" "shot"
        false).callStatuses = []
    ∧ (runOneIteration [] questionResp [] execStub "https://example.com" "shot"
        false).statusUpdate = some UIStatus.waitingStatus := by
  have h := claim3_zero_calls [] questionResp [] execStub "https://example.com" "shot"
    false questionCand [] rfl rfl
  refine ⟨h.1, ?_⟩
  have h2 := (h.2.1 (by decide)).2
  rw [h2]
  decide

/-- Claim C3 counterexample: a reply with zero function calls does not
always end the iteration with a waiting/idle status — the malformed
candidate retries instead: the signal is a retry and no status update is
sent. -/
theorem claim3_counterexample :
    extractFunctionCalls malformedEmptyCand = []
    ∧ (runOneIteration [] malformedEmptyResp [] execStub "https://example.com" "shot"
        false).signal = IterSignal.continueIter
    ∧ (runOneIteration [] malformedEmptyResp [] execStub "https://example.com" "shot"
        false).statusUpdate = none := by
  refine ⟨rfl, rfl, rfl⟩

/-- Claim C4 (amended): a malformed candidate with falsy text and no
function calls makes the iteration signal a retry without executing any
action and without sending a status update; the conversation history
gains exactly the candidate's content — so it is unchanged precisely
when the candidate carries no content. -/
theorem claim4_malformed_retry (contents : List Content) (resp : ModelResponse)
    (oracle : List Bool) (exec : FunctionCall → ActionResult)
    (currentUrl shot : String) (stop : Bool) (cand : Candidate) (rest : List Candidate)
    (hc : resp.candidates = cand :: rest)
    (hm : isMalformedFunctionCall cand = true)
    (ht : getText cand = none)
    (hfc : extractFunctionCalls cand = []) :
    runOneIteration contents resp oracle exec currentUrl shot stop =
      { signal := IterSignal.continueIter,
        contents := contents ++ cand.content.toList,
        callStatuses := [], statusUpdate := none, errorReported := false } := by
  obtain ⟨cands⟩ := resp
  simp only at hc
  subst hc
  simp [runOneIteration, hfc, ht, hm, jsStrOptFalsy]

/-- Claim C4 witness: with a content-free malformed candidate the
iteration retries and the history is unchanged. -/
theorem claim4_malformed_retry_witness :
    runOneIteration [] malformedNoContentResp [] execStub "https://example.com" "shot"
        false =
      { signal := IterSignal.continueIter, contents := [], callStatuses := [],
        statusUpdate := none, errorReported := false } :=
  claim4_malformed_retry [] malformedNoContentResp [] execStub "https://example.com"
    "shot" false malformedNoContentCand [] rfl rfl rfl rfl

/-- Claim C4 counterexample: a malformed candidate that carries content
(here an empty parts array) mutates the conversation history before the
retry — the model turn is appended, so the history is not identical. -/
theorem claim4_counterexample :
    isMalformedFunctionCall malformedEmptyCand = true
    ∧ getText malformedEmptyCand = none
    ∧ extractFunctionCalls malformedEmptyCand = []
    ∧ (runOneIteration [] malformedEmptyResp [] execStub "https://example.com" "shot"
        false).signal = IterSignal.continueIter
    ∧ (runOneIteration [] malformedEmptyResp [] execStub "https://example.com" "shot"
        false).contents ≠ [] := by
  refine ⟨rfl, rfl, rfl, rfl, ?_⟩
  decide

/-- Claim C7 (amended): a success at attempt k (k < 5) after k failures
returns that attempt's response after backoff delays 1000*2^j for j < k;
when all five attempts fail, exactly the final error is surfaced (with
its status annotation) after the four delays 1s, 2s, 4s, 8s — the 16s
step of the doubling schedule never occurs. -/
theorem claim7_retry :
    (∀ (res : Nat → Except ApiError ModelResponse) (k : Nat) (r : ModelResponse),
      k < 5 → (∀ j, j < k → ∃ e, res j = .error e) → res k = .ok r →
      getModelResponse res =
        (.ok r, (List.range k).map (fun j => baseDelayMs * 2 ^ j)))
    ∧ (∀ (res : Nat → Except ApiError ModelResponse) (e4 : ApiError),
      (∀ j, j < 4 → ∃ e, res j = .error e) → res 4 = .error e4 →
      getModelResponse res =
        (.error (enhanceError e4), [1000, 2000, 4000, 8000])) := by
  constructor
  · intro res k r hk herr hok
    interval_cases k
    · simp [getModelResponse, getModelResponseAux, hok, maxRetries]
    · obtain ⟨e0, h0⟩ := herr 0 (by omega)
      simp [getModelResponse, getModelResponseAux, h0, hok, maxRetries, baseDelayMs,
        List.range_succ]
    · obtain ⟨e0, h0⟩ := herr 0 (by omega)
      obtain ⟨e1, h1⟩ := herr 1 (by omega)
      simp [getModelResponse, getModelResponseAux, h0, h1, hok, maxRetries, baseDelayMs,
        List.range_succ]
    · obtain ⟨e0, h0⟩ := herr 0 (by omega)
      obtain ⟨e1, h1⟩ := herr 1 (by omega)
      obtain ⟨e2, h2⟩ := herr 2 (by omega)
      simp [getModelResponse, getModelResponseAux, h0, h1, h2, hok, maxRetries, baseDelayMs,
        List.range_succ]
    · obtain ⟨e0, h0⟩ := herr 0 (by omega)
      obtain ⟨e1, h1⟩ := herr 1 (by omega)
      obtain ⟨e2, h2⟩ := herr 2 (by omega)
      obtain ⟨e3, h3⟩ := herr 3 (by omega)
      simp [getModelResponse, getModelResponseAux, h0, h1, h2, h3, hok, maxRetries,
        baseDelayMs, List.range_succ]
  · intro res e4 herr h4
    obtain ⟨e0, h0⟩ := herr 0 (by omega)
    obtain ⟨e1, h1⟩ := herr 1 (by omega)
    obtain ⟨e2, h2⟩ := herr 2 (by omega)
    obtain ⟨e3, h3⟩ := herr 3 (by omega)
    simp [getModelResponse, getModelResponseAux, h0, h1, h2, h3, h4, maxRetries, baseDelayMs]

/-- Claim C7 witness: two failures then a success — the call succeeds
after delays of 1s and 2s. -/
theorem claim7_retry_witness :
    getModelResponse attemptsTwoFailures = (.ok { candidates := [] }, [1000, 2000]) := by
  have h := claim7_retry.1 attemptsTwoFailures 2 { candidates := [] } (by omega)
    (fun j hj => ⟨{ message := some "boom", status := some 500,
                    statusText := some "Server Error" },
      by interval_cases j <;> rfl⟩) rfl
  rw [h]
  norm_num [List.range_succ, baseDelayMs]

/-- Claim C7 counterexample: when every attempt fails, the delays slept
are 1s, 2s, 4s and 8s only — no 16-second delay ever occurs, so the
claimed delay schedule 1,2,4,8,16 is wrong about the code. -/
theorem claim7_counterexample :
    (getModelResponse attemptsAllFail).2 = [1000, 2000, 4000, 8000]
    ∧ ¬ (16000 ∈ (getModelResponse attemptsAllFail).2) := by
  constructor
  · rfl
  · decide

/-- Claim C8, code evaluation at the failing inputs: in the legacy
executor the injection-failure result and the generic-failure result
carry no url field, violating the documented invariant; the
wait_5_seconds result does carry the url, and the newer service-worker
variant carries the url on exactly those failure paths. -/
theorem claim8_url_missing :
    (executeAction "click_at" envInjectFail).url = none
    ∧ (executeAction "click_at" envOtherFail).url = none
    ∧ (executeAction "wait_5_seconds" envInjectFail).url = some "https://site.example"
    ∧ (executeActionSW "click_at" envInjectFail).url = some "https://site.example"
    ∧ (executeActionSW "click_at" envOtherFail).url = some "https://site.example" := by
  refine ⟨rfl, rfl, rfl, rfl, rfl⟩

/-- Claim C10 (amended): a non-empty url without an http/https scheme is
navigated to with https:// prepended and reported back as the url; a url
carrying a scheme is used unchanged; an absent — or empty, which the
code conflates with absent — url argument yields a failure result
carrying the current location, with no navigation performed. -/
theorem claim10_navigate :
    (∀ (u loc : String), u ≠ "" →
      jsStartsWith u "http://" = false → jsStartsWith u "https://" = false →
      navigate (some u) loc = navSuccess ("https://" ++ u))
    ∧ (∀ (u loc : String),
      jsStartsWith u "http://" = true ∨ jsStartsWith u "https://" = true →
      navigate (some u) loc = navSuccess u)
    ∧ (∀ loc, navigate none loc = navNoUrl loc)
    ∧ (∀ loc, navigate (some "") loc = navNoUrl loc) := by
  refine ⟨?_, ?_, fun loc => rfl, fun loc => rfl⟩
  · intro u loc hne h1 h2
    simp [navigate, hne, h1, h2]
  · intro u loc hs
    have hne : u ≠ "" := by
      intro he
      subst he
      rcases hs with h | h <;> exact absurd h (by decide)
    have hcond : (!(jsStartsWith u "http://") && !(jsStartsWith u "https://")) = false := by
      rcases hs with h | h <;> simp [h]
    simp [navigate, hne, hcond]

/-- Claim C10 witness: the scheme-less url weather.com navigates to
https prepended; an absent url fails with the current location. -/
theorem claim10_navigate_witness :
    navigate (some "weather.com") "about:blank" = navSuccess "https://weather.com"
    ∧ navigate none "about:blank" = navNoUrl "about:blank" :=
  ⟨claim10_navigate.1 "weather.com" "about:blank" (by decide) rfl rfl,
    claim10_navigate.2.2.1 "about:blank"⟩

/-- Claim C10 counterexample: the empty string carries no scheme, yet the
code treats it as an absent url — it fails and performs no navigation
instead of navigating to the https-prepended target. -/
theorem claim10_counterexample :
    jsStartsWith "" "http://" = false
    ∧ jsStartsWith "" "https://" = false
    ∧ navigate (some "") "about:blank" = navNoUrl "about:blank"
    ∧ (navigate (some "") "about:blank").navTarget = none := by
  refine ⟨rfl, rfl, rfl, rfl⟩

end GCU

